import Mathlib

/-!
Verification of the prysm/code6 optical-propagation sources.

Shallow embedding of:
* `src/prysm/detector.py` (`Detector.sample_psf`, `Detector.sample_image`,
  `Detector.save_image`, `Detector.show_image`) over `ℚ`-valued data;
* `src/prysm/coordinates.py` (`cart_to_polar`, `polar_to_cart`) over `ℝ`;
* `src/code6/otf.py` (`MTF.__init__`, `MTF.tan`, `MTF.sag`,
  `MTF.exact_polar`, `MTF.exact_xy`, `MTF.from_psf`,
  `diffraction_limited_mtf`) over `ℝ`.

Python errors are modelled by `Option`/`Except` results: a call that would
raise (reshape size mismatch, `AttributeError`, `ValueError`) returns
`none`/`.error`.
-/

namespace Prysm

/-! ### Detector model (src/prysm/detector.py) -/

/-- Modelled from the spec: the `PSF` class of `prysm/psf.py` is not under
`src/`; per the spec's data model a PSF owns a 2D data array, its physical
`sample_spacing`, and `samples_x`/`samples_y` counts.  Data is a total
function; only indices below `samples_x`/`samples_y` are meaningful. -/
structure PSFm where
  data : ℕ → ℕ → ℚ
  sample_spacing : ℚ
  samples_x : ℕ
  samples_y : ℕ

/-- Modelled from the spec: the `Image` collaborator (`prysm/objects.py` is
not under `src/`) owns a 2D data array and a `sample_spacing`, and converts
to a PSF view via `as_psf`. -/
structure Imagem where
  data : ℕ → ℕ → ℚ
  sample_spacing : ℚ
  samples_x : ℕ
  samples_y : ℕ

/-- Modelled from the spec: `Image.as_psf()` returns a PSF view of the same
data and sample spacing. -/
def Imagem.as_psf (im : Imagem) : PSFm :=
  { data := im.data
    sample_spacing := im.sample_spacing
    samples_x := im.samples_x
    samples_y := im.samples_y }

/-- An entry of a detector's capture history: `sample_psf` appends PSFs,
`sample_image` appends an Image. -/
inductive Capture where
  | psf (p : PSFm)
  | image (im : Imagem)

/-- `Detector.__init__`: stores `pixel_size`, `resolution`, `bit_depth` and
an empty capture list. -/
structure Detector where
  pixel_size : ℚ
  resolution : ℕ × ℕ
  bit_depth : ℕ
  captures : List Capture

/-- Modelled from the spec: `is_odd` of `prysm/util.py` is not under `src/`;
it is the parity test used by `sample_psf` ("if the residual count on an
axis is even ... if odd ...").  -/
def is_odd (n : ℕ) : Bool :=
  n % 2 = 1

/-- `int(np.ceil(float(r) / 2))` for a natural residual `r`. -/
def ceilHalf (r : ℕ) : ℕ :=
  (r + 1) / 2

/-- `Detector.sample_psf` (detector.py lines 19-68).  Returns `none` when the
Python code would raise: a nonpositive `samples_per_pixel` (division /
reshape error), or the `reshape` on line 59 failing because the trimmed
block's element count differs from `total_samples_x * samples_per_pixel *
total_samples_y * samples_per_pixel`.  On success returns the updated
detector (capture appended) and the new PSF (`captures[-1]`). -/
def Detector.sample_psf (d : Detector) (psf : PSFm) : Option (Detector × PSFm) :=
  let sppZ : ℤ := ⌈d.pixel_size / psf.sample_spacing⌉
  if sppZ ≤ 0 then none else
  let spp : ℕ := sppZ.toNat
  let total_samples_x := psf.samples_x / spp
  let total_samples_y := psf.samples_y / spp
  let final_idx_x := total_samples_x * spp
  let final_idx_y := total_samples_y * spp
  let residual_x := psf.samples_x - final_idx_x
  let residual_y := psf.samples_y - final_idx_y
  -- slice bounds `data[startx:stopx, starty:stopy]` per the two branches
  let bounds :=
    if ¬ is_odd residual_x then
      (residual_x / 2, final_idx_x + residual_x / 2,
       residual_y / 2, final_idx_y + residual_y / 2)
    else
      (ceilHalf residual_x, final_idx_x + residual_x / 2,
       ceilHalf residual_y, final_idx_y + ceilHalf residual_y)
  let startx := bounds.1
  let stopx := bounds.2.1
  let starty := bounds.2.2.1
  let stopy := bounds.2.2.2
  let lenx := stopx - startx
  let leny := stopy - starty
  -- numpy `reshape` succeeds exactly when the element counts agree
  if lenx * leny = (total_samples_x * spp) * (total_samples_y * spp) then
    let output_data : ℕ → ℕ → ℚ := fun i j =>
      (∑ a ∈ Finset.range spp, ∑ b ∈ Finset.range spp,
        psf.data (startx + (i * spp + a)) (starty + (j * spp + b))) /
        ((spp : ℚ) * (spp : ℚ))
    let newpsf : PSFm :=
      { data := output_data
        sample_spacing := d.pixel_size
        samples_x := total_samples_x
        samples_y := total_samples_y }
    some ({ d with captures := d.captures ++ [Capture.psf newpsf] }, newpsf)
  else none

/-- `Detector.sample_image` (detector.py lines 70-83): converts the image to
a PSF, delegates to `sample_psf` (which appends the intermediate PSF), wraps
the result as an Image, appends it, returns it. -/
def Detector.sample_image (d : Detector) (im : Imagem) : Option (Detector × Imagem) :=
  match d.sample_psf im.as_psf with
  | none => none
  | some (d1, intermediate) =>
    let newim : Imagem :=
      { data := intermediate.data
        sample_spacing := intermediate.sample_spacing
        samples_x := intermediate.samples_x
        samples_y := intermediate.samples_y }
    some ({ d1 with captures := d1.captures ++ [Capture.image newim] }, newim)

/-- A Python value passed as the `which` argument of
`save_image`/`show_image`: a string or an integer. -/
inductive PyVal where
  | str (s : String)
  | int (z : ℤ)
deriving DecidableEq

/-- The Python exceptions relevant to `save_image`/`show_image`. -/
inductive PyErr where
  | attributeError
  | valueError
deriving DecidableEq

/-- Python `str.lower()`, per-character ASCII case mapping (sufficient for
the keyword strings `save_image`/`show_image` compare against). -/
def py_lower (s : String) : String :=
  ⟨s.data.map Char.toLower⟩

/-- Capture selection of `Detector.save_image` (detector.py lines 85-103).
`which.lower()` is evaluated first, so an integer `which` raises
`AttributeError` before the `type(which) is int` branch can run; a string
`which` selects `captures[-1]` when it lower-cases to `"last"` and otherwise
falls to the `else` branch raising `ValueError`.  Returns the Python index
selected into `captures`. -/
def save_image_select (which : PyVal) : Except PyErr ℤ :=
  match which with
  | .int _ => .error .attributeError
  | .str s => if py_lower s = "last" then .ok (-1) else .error .valueError

/-- Capture selection of `Detector.show_image` (detector.py lines 105-129).
Same `which.lower()`-first structure as `save_image`, but there is no `else`
branch: an unrecognized string selects nothing and returns without raising. -/
def show_image_select (which : PyVal) : Except PyErr (Option ℤ) :=
  match which with
  | .int _ => .error .attributeError
  | .str s => if py_lower s = "last" then .ok (some (-1)) else .ok none

/-! ### Coordinate conversions (src/prysm/coordinates.py) -/

/-- Modelled from the spec: `atan2` is re-exported by `prysm/mathops.py`,
which is not under `src/`; the spec gives `cart_to_polar(x, y) =
(√(x²+y²), atan2(y, x))` with the standard two-argument arctangent valued
in `(-π, π]`, which is the argument of the complex number `x + y·i`. -/
noncomputable def atan2 (y x : ℝ) : ℝ :=
  Complex.arg (Complex.mk x y)

/-- `cart_to_polar` (coordinates.py lines 9-27). -/
noncomputable def cart_to_polar (x y : ℝ) : ℝ × ℝ :=
  (Real.sqrt (x ^ 2 + y ^ 2), atan2 y x)

/-- `polar_to_cart` (coordinates.py lines 30-48). -/
noncomputable def polar_to_cart (rho phi : ℝ) : ℝ × ℝ :=
  (rho * Real.cos phi, rho * Real.sin phi)

/-! ### MTF (src/code6/otf.py) -/

/-- Modelled from the spec: the `PSF` class (`code6/psf.py` is not under
`src/`).  Per the spec's data model a PSF used by `MTF.from_psf` owns a
square `n × n` data array, a `sample_spacing`, `samples = n` and
`center = floor(n/2)`; a real grid always has at least one sample. -/
structure PSFsq where
  n : ℕ
  npos : 0 < n
  data : Fin n → Fin n → ℝ
  sample_spacing : ℝ

/-- `psf.center = floor(samples/2)` (spec data model). -/
def PSFsq.center (p : PSFsq) : Fin p.n :=
  ⟨p.n / 2, Nat.div_lt_self p.npos (by norm_num)⟩

/-- `numpy.fft.fft2`: `X[u, v] = Σ_{j,k} x[j,k] ·
exp(−2πi·(u·j/n + v·k/n))`. -/
noncomputable def fft2 (n : ℕ) (x : Fin n → Fin n → ℂ) : Fin n → Fin n → ℂ :=
  fun u v => ∑ j : Fin n, ∑ k : Fin n,
    x j k * Complex.exp (-(2 * (Real.pi : ℂ) * Complex.I) *
      (((u.val * j.val : ℕ) : ℂ) / (n : ℂ) + ((v.val * k.val : ℕ) : ℂ) / (n : ℂ)))

/-- Index map of `numpy.fft.fftshift`: entry `i` of the shifted array is
entry `(i − n/2) mod n = (i + n − n/2) mod n` of the original. -/
def shiftIdx (n : ℕ) (hn : 0 < n) (i : Fin n) : Fin n :=
  ⟨(i.val + n - n / 2) % n, Nat.mod_lt _ hn⟩

/-- `numpy.fft.fftshift` on a 2D array, applied to both axes. -/
noncomputable def fftshift2 (n : ℕ) (hn : 0 < n) (x : Fin n → Fin n → ℂ) :
    Fin n → Fin n → ℂ :=
  fun i j => x (shiftIdx n hn i) (shiftIdx n hn j)

/-- Modelled from the spec: `forward_ft_unit` of `code6/fttools.py` is not
under `src/`; per the spec it returns the centered FFT frequency axis of
length `n` for sample spacing `Δ`, with index `floor(n/2)` mapping to 0.
Only its length (`n`) matters for the claims below. -/
noncomputable def forward_ft_unit (spacing : ℝ) (n : ℕ) : List ℝ :=
  List.ofFn (fun k : Fin n => ((k.val : ℝ) - ((n / 2 : ℕ) : ℝ)) / (spacing * (n : ℝ)))

/-- `MTF.__init__` (otf.py lines 47-52): stores `data` and `unit`;
`samples` and `center` are derived below exactly as in the constructor. -/
structure MTF where
  data : List (List ℝ)
  unit : List ℝ

/-- `self.samples = len(unit)`. -/
def MTF.samples (m : MTF) : ℕ :=
  m.unit.length

/-- `self.center = int(floor(self.samples/2))`. -/
def MTF.center (m : MTF) : ℕ :=
  m.samples / 2

/-- `MTF.tan` (otf.py lines 56-60):
`(unit[center:-1], data[center, center:-1])`.  The Python slice `l[c:-1]`
is `(l.drop c).dropLast`. -/
def MTF.tan (m : MTF) : List ℝ × List ℝ :=
  ((m.unit.drop m.center).dropLast,
   ((m.data.getD m.center []).drop m.center).dropLast)

/-- `MTF.sag` (otf.py lines 62-66):
`(unit[center:-1], data[center:-1, center])`. -/
def MTF.sag (m : MTF) : List ℝ × List ℝ :=
  ((m.unit.drop m.center).dropLast,
   ((m.data.drop m.center).dropLast).map (fun row => row.getD m.center 0))

/-- The claim's version of `tan`, following the spec's words:
`(unit[center:], data[center, center:])` — the full positive-frequency
half-slice including the last sample.  Stated only to be compared with
`MTF.tan` as the source defines it. -/
def MTF.tanSpec (m : MTF) : List ℝ × List ℝ :=
  (m.unit.drop m.center, (m.data.getD m.center []).drop m.center)

/-- The claim's version of `sag`, following the spec's words:
`(unit[center:], data[center:, center])`. -/
def MTF.sagSpec (m : MTF) : List ℝ × List ℝ :=
  (m.unit.drop m.center, (m.data.drop m.center).map (fun row => row.getD m.center 0))

/-- `MTF.exact_polar` (otf.py lines 68-98), sequence case: the loop
`for freq, az in zip(freqs, azimuths)` evaluates the cached interpolant
`ev = self.interpf.ev` (a scipy bivariate spline, an external collaborator,
taken here as a function parameter) at `polar_to_cart(freq, az)`. -/
noncomputable def MTF.exact_polar (m : MTF) (ev : ℝ → ℝ → ℝ)
    (freqs azimuths : List ℝ) : List ℝ :=
  (freqs.zip azimuths).map (fun p =>
    ev (polar_to_cart p.1 p.2).1 (polar_to_cart p.1 p.2).2)

/-- `MTF.exact_xy` (otf.py lines 100-128), sequence case: the loop
`for x, y in zip(x, y)` evaluates the interpolant at each pair. -/
noncomputable def MTF.exact_xy (m : MTF) (ev : ℝ → ℝ → ℝ)
    (x y : List ℝ) : List ℝ :=
  (x.zip y).map (fun p => ev p.1 p.2)

/-- The magnitude array `dat = abs(fftshift(fft2(psf.data)))` of
`MTF.from_psf` (otf.py line 185). -/
noncomputable def psf_dat (p : PSFsq) : Fin p.n → Fin p.n → ℝ :=
  fun i j => Complex.abs
    (fftshift2 p.n p.npos (fft2 p.n (fun a b => ((p.data a b : ℝ) : ℂ))) i j)

/-- `MTF.from_psf` (otf.py lines 183-187): `dat` normalized by
`dat[psf.center, psf.center]`, paired with the frequency axis. -/
noncomputable def MTF.from_psf (p : PSFsq) : MTF :=
  { data := List.ofFn (fun i : Fin p.n => List.ofFn (fun j : Fin p.n =>
      psf_dat p i j / psf_dat p p.center p.center))
    unit := forward_ft_unit p.sample_spacing p.n }

/-- `diffraction_limited_mtf` (otf.py lines 194-202) as index functions:
the `k`-th entries of the returned frequency and MTF arrays, with
`normalized_frequency = linspace(0, 1, num_pts)` so entry `k` is
`k/(num_pts−1)`. -/
noncomputable def diffraction_limited_mtf (fno wavelength : ℝ) (num_pts : ℕ) :
    (ℕ → ℝ) × (ℕ → ℝ) :=
  let normalized_frequency : ℕ → ℝ := fun k => (k : ℝ) / ((num_pts : ℝ) - 1)
  let extinction := 1 / (wavelength / 1000 * fno)
  (fun k => normalized_frequency k * extinction,
   fun k => (2 / Real.pi) * (Real.arccos (normalized_frequency k) -
     normalized_frequency k * Real.sqrt (1 - normalized_frequency k ^ 2)))

/-! ### Concrete detector instances used by the theorems below -/

/-- A detector with 2-unit pixels and an empty capture history. -/
def d1 : Detector :=
  { pixel_size := 2, resolution := (1024, 1024), bit_depth := 14, captures := [] }

/-- A 3×3 PSF with unit spacing: `samples_per_pixel = 2`, odd residual 1. -/
def p3 : PSFm :=
  { data := fun _ _ => 1, sample_spacing := 1, samples_x := 3, samples_y := 3 }

/-- A uniform 4×4 PSF of constant value 5 with unit spacing. -/
def p4u : PSFm :=
  { data := fun _ _ => 5, sample_spacing := 1, samples_x := 4, samples_y := 4 }

/-- A uniform 2×2 image with unit spacing. -/
def im2 : Imagem :=
  { data := fun _ _ => 3, sample_spacing := 1, samples_x := 2, samples_y := 2 }

/-! ### Detector lemmas -/

/-- `samples_per_pixel = int(np.ceil(pixel_size / psf.sample_spacing))`. -/
def samples_per_pixel (d : Detector) (p : PSFm) : ℕ :=
  (⌈d.pixel_size / p.sample_spacing⌉ : ℤ).toNat

/-- Anatomy of a successful `sample_psf` call: the output PSF's data is the
block average of the trimmed input at some offsets with `samples_per_pixel ≥
1`, its spacing is the detector's pixel size, and the new detector state is
the old one with exactly the output PSF appended to `captures`. -/
theorem sample_psf_some_elim {d : Detector} {p : PSFm} {res : Detector × PSFm}
    (h : d.sample_psf p = some res) :
    ∃ startx starty : ℕ, 1 ≤ samples_per_pixel d p ∧
      res.2.data = (fun i j =>
        (∑ a ∈ Finset.range (samples_per_pixel d p),
         ∑ b ∈ Finset.range (samples_per_pixel d p),
          p.data (startx + (i * samples_per_pixel d p + a))
            (starty + (j * samples_per_pixel d p + b))) /
        ((samples_per_pixel d p : ℚ) * (samples_per_pixel d p : ℚ))) ∧
      res.2.sample_spacing = d.pixel_size ∧
      res.1 = { d with captures := d.captures ++ [Capture.psf res.2] } := by
  simp only [Detector.sample_psf] at h
  unfold samples_per_pixel
  split at h
  · exact absurd h (by simp)
  · next h0 =>
    split at h
    · split at h
      · rw [Option.some_inj] at h
        subst h
        exact ⟨_, _, by omega, rfl, rfl, rfl⟩
      · exact absurd h (by simp)
    · split at h
      · rw [Option.some_inj] at h
        subst h
        exact ⟨_, _, by omega, rfl, rfl, rfl⟩
      · exact absurd h (by simp)

/-- Claim C2 (code bug): for a 3×3 PSF with unit spacing on a detector with
pixel size 2, `samples_per_pixel = 2` and the x-residual is 1 (odd); the
odd branch slices `data[ceil(r/2) : final_idx_x + floor(r/2)]`, which has
`final_idx_x − 1` columns, so the `reshape` on line 59 raises `ValueError`
instead of producing the `blocks · samples_per_pixel` block the claim
describes. -/
theorem sample_psf_odd_residual_reshape_fails :
    Detector.sample_psf d1 p3 = none := by
  have hspp : (⌈d1.pixel_size / p3.sample_spacing⌉ : ℤ) = 2 := by
    norm_num [d1, p3]
  simp only [Detector.sample_psf, hspp, show Int.toNat 2 = 2 from rfl]
  norm_num [is_odd, ceilHalf, d1, p3]

/-- Claim C6: a PSF accepted by `sample_psf` comes back with
`sample_spacing` equal to the detector's `pixel_size`, and the detector's
own `pixel_size` field is unchanged by the call. -/
theorem sample_psf_spacing_eq_pixel_size {d : Detector} {p : PSFm}
    {res : Detector × PSFm} (h : d.sample_psf p = some res) :
    res.2.sample_spacing = d.pixel_size ∧ res.1.pixel_size = d.pixel_size := by
  obtain ⟨sx, sy, -, -, hsp, hdet⟩ := sample_psf_some_elim h
  exact ⟨hsp, by rw [hdet]⟩

/-- Sampling the uniform 4×4 PSF on detector `d1` succeeds (residual 0). -/
theorem p4u_succeeds : (Detector.sample_psf d1 p4u).isSome = true := by
  have hspp : (⌈d1.pixel_size / p4u.sample_spacing⌉ : ℤ) = 2 := by
    norm_num [d1, p4u]
  simp only [Detector.sample_psf, hspp, show Int.toNat 2 = 2 from rfl]
  norm_num [is_odd, ceilHalf, d1, p4u]

/-- The successful capture of the uniform 4×4 PSF by detector `d1`. -/
def c6res : Detector × PSFm :=
  (Detector.sample_psf d1 p4u).get p4u_succeeds

/-- `sample_psf d1 p4u` succeeds and returns `c6res`. -/
theorem c6res_eq : Detector.sample_psf d1 p4u = some c6res :=
  (Option.some_get _).symm

/-- Witness for claim C6 at the uniform 4×4 PSF on detector `d1`. -/
theorem sample_psf_spacing_eq_pixel_size_witness :
    Detector.sample_psf d1 p4u = some c6res ∧
      c6res.2.sample_spacing = d1.pixel_size ∧ c6res.1.pixel_size = d1.pixel_size :=
  ⟨c6res_eq, sample_psf_spacing_eq_pixel_size c6res_eq⟩

/-- Claim C7: a spatially uniform PSF of constant value `v` is mapped by
`sample_psf` to a PSF whose data is uniformly `v` (block-averaging a
constant array yields the constant). -/
theorem sample_psf_uniform_const {d : Detector} {p : PSFm} {v : ℚ}
    (hv : ∀ i j, p.data i j = v) {res : Detector × PSFm}
    (h : d.sample_psf p = some res) :
    ∀ i j, res.2.data i j = v := by
  obtain ⟨sx, sy, hspp, hdata, -, -⟩ := sample_psf_some_elim h
  set spp := samples_per_pixel d p with hsppdef
  intro i j
  rw [hdata]
  simp only [hv, Finset.sum_const, Finset.card_range, nsmul_eq_mul]
  have hne : ((spp : ℚ)) ≠ 0 := Nat.cast_ne_zero.mpr (by omega)
  field_simp
  ring

/-- Witness for claim C7: the uniform 4×4 PSF of value 5 comes out uniform. -/
theorem sample_psf_uniform_const_witness :
    Detector.sample_psf d1 p4u = some c6res ∧ c6res.2.data 0 0 = 5 :=
  ⟨c6res_eq, sample_psf_uniform_const (fun _ _ => rfl) c6res_eq 0 0⟩

/-- Claim C4 (code bug): `save_image`/`show_image` evaluate `which.lower()`
before the `type(which) is int` test, so any integer `which` raises
`AttributeError` (never selecting `captures[n]`); the string `"first"`,
documented as recognized, falls to the `else` branch of `save_image` and
raises `ValueError`; and `show_image` has no `else` branch, so an
unrecognized string selects nothing and does not raise. -/
theorem which_selector_contradicts_doc :
    save_image_select (PyVal.int 0) = Except.error PyErr.attributeError ∧
    save_image_select (PyVal.str "first") = Except.error PyErr.valueError ∧
    save_image_select (PyVal.str "LAST") = Except.ok (-1) ∧
    show_image_select (PyVal.int 0) = Except.error PyErr.attributeError ∧
    show_image_select (PyVal.str "garbage") = Except.ok none :=
  ⟨rfl, rfl, rfl, rfl, rfl⟩

/-- Claim C10: a successful `sample_psf` appends exactly its returned PSF to
`captures`, and a successful `sample_image` appends exactly the intermediate
PSF followed by the returned Image, which becomes `captures[-1]`; the prior
history is preserved as-is in both cases. -/
theorem captures_append_only :
    (∀ (d : Detector) (p : PSFm) (res : Detector × PSFm),
      d.sample_psf p = some res →
      res.1.captures = d.captures ++ [Capture.psf res.2]) ∧
    (∀ (d : Detector) (im : Imagem) (res : Detector × Imagem),
      d.sample_image im = some res →
      (∃ q : PSFm, res.1.captures = d.captures ++ [Capture.psf q, Capture.image res.2]) ∧
        res.1.captures.getLast? = some (Capture.image res.2)) := by
  have hpsf : ∀ (d : Detector) (p : PSFm) (res : Detector × PSFm),
      d.sample_psf p = some res →
      res.1.captures = d.captures ++ [Capture.psf res.2] := by
    intro d p res h
    obtain ⟨-, -, -, -, -, hdet⟩ := sample_psf_some_elim h
    rw [hdet]
  refine ⟨hpsf, ?_⟩
  intro d im res h
  unfold Detector.sample_image at h
  cases hps : d.sample_psf im.as_psf with
  | none => rw [hps] at h; cases h
  | some pr =>
    rw [hps] at h
    rw [Option.some_inj] at h
    have hcap := hpsf d im.as_psf pr hps
    refine ⟨⟨pr.2, ?_⟩, ?_⟩
    · rw [← h]
      simp only [hcap]
      simp
    · rw [← h]
      simp

/-- Sampling the 2×2 image on detector `d1` succeeds. -/
theorem im2_succeeds : (Detector.sample_image d1 im2).isSome = true := by
  have h : (Detector.sample_psf d1 im2.as_psf).isSome = true := by
    have hspp : (⌈d1.pixel_size / im2.as_psf.sample_spacing⌉ : ℤ) = 2 := by
      norm_num [d1, im2, Imagem.as_psf]
    simp only [Detector.sample_psf, hspp, show Int.toNat 2 = 2 from rfl]
    norm_num [is_odd, ceilHalf, d1, im2, Imagem.as_psf]
  cases hps : Detector.sample_psf d1 im2.as_psf with
  | none => rw [hps] at h; cases h
  | some pr =>
    obtain ⟨dd, qq⟩ := pr
    simp [Detector.sample_image, hps]

/-- The successful capture of the 2×2 image by detector `d1`. -/
def c10res : Detector × Imagem :=
  (Detector.sample_image d1 im2).get im2_succeeds

/-- `sample_image d1 im2` succeeds and returns `c10res`. -/
theorem c10res_eq : Detector.sample_image d1 im2 = some c10res :=
  (Option.some_get _).symm

/-- Witness for claim C10 at the uniform 4×4 PSF and the 2×2 image. -/
theorem captures_append_only_witness :
    c6res.1.captures = d1.captures ++ [Capture.psf c6res.2] ∧
      c10res.1.captures.getLast? = some (Capture.image c10res.2) :=
  ⟨captures_append_only.1 d1 p4u c6res c6res_eq,
   (captures_append_only.2 d1 im2 c10res c10res_eq).2⟩

/-! ### Analytic formula and coordinate theorems -/

/-- Claim C8: for `fno > 0`, `wavelength > 0` and `num_pts ≥ 2`, the mtf
array of `diffraction_limited_mtf` has first entry (normalized frequency 0)
exactly 1 and last entry (normalized frequency 1) exactly 0, following
`(2/π)(arccos f − f√(1−f²))`. -/
theorem diffraction_limited_mtf_boundary (fno wavelength : ℝ) (num_pts : ℕ)
    (hf : 0 < fno) (hw : 0 < wavelength) (hn : 2 ≤ num_pts) :
    (diffraction_limited_mtf fno wavelength num_pts).2 0 = 1 ∧
    (diffraction_limited_mtf fno wavelength num_pts).2 (num_pts - 1) = 0 := by
  have hge : (2 : ℝ) ≤ (num_pts : ℝ) := by exact_mod_cast hn
  have hne : ((num_pts : ℝ) - 1) ≠ 0 := by linarith
  constructor
  · simp only [diffraction_limited_mtf, Nat.cast_zero, zero_div, Real.arccos_zero,
      zero_mul, sub_zero, zero_pow, Real.sqrt_one]
    field_simp
  · have h1 : (((num_pts - 1 : ℕ)) : ℝ) = (num_pts : ℝ) - 1 := by
      have h2 : 1 ≤ num_pts := by omega
      push_cast [Nat.cast_sub h2]
      ring
    simp only [diffraction_limited_mtf, h1, div_self hne, Real.arccos_one, one_pow,
      sub_self, Real.sqrt_zero, mul_zero, sub_zero, zero_sub, mul_one]

/-- Witness for claim C8 at `fno = 1`, `wavelength = 1/2`, `num_pts = 2`. -/
theorem diffraction_limited_mtf_boundary_witness :
    (0:ℝ) < 1 ∧ (0:ℝ) < 1/2 ∧ 2 ≤ 2 ∧
    (diffraction_limited_mtf 1 (1/2) 2).2 0 = 1 ∧
    (diffraction_limited_mtf 1 (1/2) 2).2 (2 - 1) = 0 :=
  ⟨by norm_num, by norm_num, le_refl 2,
   (diffraction_limited_mtf_boundary 1 (1/2) 2 (by norm_num) (by norm_num)
     (le_refl 2)).1,
   (diffraction_limited_mtf_boundary 1 (1/2) 2 (by norm_num) (by norm_num)
     (le_refl 2)).2⟩

/-- Claim C9: for `ρ ≥ 0` and `φ ∈ [-π, π]`, `cart_to_polar ∘ polar_to_cart`
returns the radius `ρ` exactly, and an angle equal to `φ` modulo `2π`
whenever `ρ ≠ 0` (for `ρ = 0` the angle is unconstrained). -/
theorem polar_cart_roundtrip (rho phi : ℝ) (hr : 0 ≤ rho)
    (hphi : phi ∈ Set.Icc (-Real.pi) Real.pi) :
    (cart_to_polar (polar_to_cart rho phi).1 (polar_to_cart rho phi).2).1 = rho ∧
    (rho = 0 ∨ ∃ k : ℤ,
      (cart_to_polar (polar_to_cart rho phi).1 (polar_to_cart rho phi).2).2 =
        phi + 2 * Real.pi * k) := by
  constructor
  · show Real.sqrt ((rho * Real.cos phi) ^ 2 + (rho * Real.sin phi) ^ 2) = rho
    rw [mul_pow, mul_pow, ← mul_add, Real.cos_sq_add_sin_sq, mul_one,
      Real.sqrt_sq hr]
  · rcases eq_or_lt_of_le hr with hz | hpos
    · exact Or.inl hz.symm
    refine Or.inr ?_
    show ∃ k : ℤ, atan2 (rho * Real.sin phi) (rho * Real.cos phi) = phi + 2 * Real.pi * k
    rcases eq_or_lt_of_le hphi.1 with heq | hlt
    · -- φ = -π: the point is the negative real number -ρ, whose argument is π
      refine ⟨1, ?_⟩
      rw [← heq]
      have hmk : Complex.mk (rho * Real.cos (-Real.pi)) (rho * Real.sin (-Real.pi)) =
          ((-rho : ℝ) : ℂ) := by
        rw [Real.cos_neg, Real.cos_pi, Real.sin_neg, Real.sin_pi]
        apply Complex.ext <;> simp
      unfold atan2
      rw [hmk, Complex.arg_ofReal_of_neg (by linarith)]
      ring
    · -- φ ∈ (-π, π]: the argument of ρ·(cos φ + i·sin φ) is φ itself
      refine ⟨0, ?_⟩
      have hmk : Complex.mk (rho * Real.cos phi) (rho * Real.sin phi) =
          (rho : ℂ) * (Complex.cos phi + Complex.sin phi * Complex.I) := by
        rw [Complex.mk_eq_add_mul_I, ← Complex.ofReal_cos, ← Complex.ofReal_sin]
        push_cast
        ring
      unfold atan2
      rw [hmk, Complex.arg_real_mul _ hpos,
        Complex.arg_cos_add_sin_mul_I ⟨hlt, hphi.2⟩]
      push_cast
      ring

/-- Witness for claim C9 at `ρ = 1`, `φ = 0`. -/
theorem polar_cart_roundtrip_witness :
    (0:ℝ) ≤ 1 ∧ (0:ℝ) ∈ Set.Icc (-Real.pi) Real.pi ∧
    ((cart_to_polar (polar_to_cart 1 0).1 (polar_to_cart 1 0).2).1 = 1 ∧
      ((1:ℝ) = 0 ∨ ∃ k : ℤ,
        (cart_to_polar (polar_to_cart 1 0).1 (polar_to_cart 1 0).2).2 =
          0 + 2 * Real.pi * k)) :=
  have hmem : (0:ℝ) ∈ Set.Icc (-Real.pi) Real.pi :=
    ⟨neg_nonpos.mpr Real.pi_pos.le, Real.pi_pos.le⟩
  ⟨by norm_num, hmem, polar_cart_roundtrip 1 0 (by norm_num) hmem⟩

/-! ### MTF slice theorems -/

/-- A concrete 2×2 MTF: `unit = [10, 20]`, `data = [[1,2],[3,4]]`,
`samples = 2`, `center = 1`. -/
def mtfEx : MTF :=
  { data := [[1, 2], [3, 4]], unit := [10, 20] }

/-- A concrete 3×3 MTF with `samples = 3`, `center = 1`. -/
def mtfEx3 : MTF :=
  { data := [[1, 2, 3], [4, 5, 6], [7, 8, 9]], unit := [10, 20, 30] }

/-- Counterexample to claim C3: on a 2×2 MTF the code's `tan`/`sag` slices
`[center:-1]` are empty while the claimed full half-slices `[center:]` keep
the last sample, so they differ. -/
theorem tan_sag_exclude_last_sample :
    MTF.tan mtfEx ≠ MTF.tanSpec mtfEx ∧ MTF.sag mtfEx ≠ MTF.sagSpec mtfEx := by
  constructor <;>
  · intro h
    have h1 := congrArg (fun p => p.1.length) h
    simp [MTF.tan, MTF.sag, MTF.tanSpec, MTF.sagSpec, MTF.center, MTF.samples,
      mtfEx] at h1

/-- Entry `i` of the Python slice `l[c:-1]`, i.e. of `(l.drop c).dropLast`,
is entry `c + i` of `l`. -/
theorem getD_dropLast_drop {α : Type} (l : List α) (d : α) (c i : ℕ)
    (h : c + i < l.length - 1) :
    ((l.drop c).dropLast).getD i d = l.getD (c + i) d := by
  rw [List.getD_eq_getElem?_getD, List.getD_eq_getElem?_getD, List.dropLast_eq_take,
    List.getElem?_take_of_lt (by simp; omega), List.getElem?_drop]

/-- Entry `i` of `l[c:-1]` mapped by `f` is `f` of entry `c + i` of `l`. -/
theorem getD_map_dropLast_drop (l : List (List ℝ)) (f : List ℝ → ℝ) (d : ℝ)
    (c i : ℕ) (h : c + i < l.length - 1) :
    (((l.drop c).dropLast).map f).getD i d = f (l.getD (c + i) []) := by
  have h1 : i < (((l.drop c).dropLast).map f).length := by simp; omega
  rw [List.getD_eq_getElem _ _ h1, List.getElem_map,
    List.getD_eq_getElem _ _ (by omega)]
  congr 1
  rw [List.getElem_dropLast, List.getElem_drop]

/-- Claim C3 as amended: for a square MTF, `tan` returns
`(unit[center:-1], data[center, center:-1])` and `sag` returns
`(unit[center:-1], data[center:-1, center])` — the positive-frequency
half-slices excluding the last sample — without modifying stored state:
each component has length `samples − 1 − center` and entry `i` is the
stored entry at offset `center + i`. -/
theorem tan_sag_slices (m : MTF) (hn : 0 < m.samples)
    (hd : m.data.length = m.samples)
    (hrow : ∀ row ∈ m.data, row.length = m.samples) :
    ((m.tan).1.length = m.samples - 1 - m.center ∧
     (m.tan).2.length = m.samples - 1 - m.center ∧
     (m.sag).1.length = m.samples - 1 - m.center ∧
     (m.sag).2.length = m.samples - 1 - m.center) ∧
    (∀ i, i < m.samples - 1 - m.center →
      (m.tan).1.getD i 0 = m.unit.getD (m.center + i) 0 ∧
      (m.tan).2.getD i 0 = (m.data.getD m.center []).getD (m.center + i) 0 ∧
      (m.sag).1.getD i 0 = m.unit.getD (m.center + i) 0 ∧
      (m.sag).2.getD i 0 = (m.data.getD (m.center + i) []).getD m.center 0) := by
  have hc : m.center < m.samples := Nat.div_lt_self hn one_lt_two
  have hu : m.unit.length = m.samples := rfl
  have hcd : m.center < m.data.length := by omega
  have hrowc : (m.data.getD m.center []).length = m.samples := by
    rw [List.getD_eq_getElem _ _ hcd]
    exact hrow _ (List.getElem_mem hcd)
  refine ⟨⟨?_, ?_, ?_, ?_⟩, ?_⟩
  · simp only [MTF.tan, List.length_dropLast, List.length_drop]
    omega
  · simp only [MTF.tan, List.length_dropLast, List.length_drop]
    omega
  · simp only [MTF.sag, List.length_dropLast, List.length_drop]
    omega
  · simp only [MTF.sag, List.length_map, List.length_dropLast, List.length_drop]
    omega
  · intro i hi
    refine ⟨?_, ?_, ?_, ?_⟩
    · exact getD_dropLast_drop m.unit 0 m.center i (by omega)
    · exact getD_dropLast_drop (m.data.getD m.center []) 0 m.center i (by omega)
    · exact getD_dropLast_drop m.unit 0 m.center i (by omega)
    · exact getD_map_dropLast_drop m.data (fun row => row.getD m.center 0) 0
        m.center i (by omega)

/-- Witness for the amended claim C3 on the concrete 3×3 MTF. -/
theorem tan_sag_slices_witness :
    (mtfEx3.tan).1.length = mtfEx3.samples - 1 - mtfEx3.center ∧
    (mtfEx3.tan).1.getD 0 0 = mtfEx3.unit.getD (mtfEx3.center + 0) 0 :=
  have h := tan_sag_slices mtfEx3 (by norm_num [mtfEx3, MTF.samples])
    (by norm_num [mtfEx3, MTF.samples])
    (by intro row hrow; fin_cases hrow <;> rfl)
  ⟨h.1.1, (h.2 0 (by norm_num [mtfEx3, MTF.samples, MTF.center])).1⟩

/-- Claim C5: `exact_polar` and `exact_xy` on sequences never raise a length
error: they return exactly `min` of the two lengths, pairing elements in
input order up to the shorter sequence (zip-style truncation), each output
being the interpolant evaluated at the paired point. -/
theorem exact_polar_xy_zip_truncation (m : MTF) (ev : ℝ → ℝ → ℝ)
    (freqs azimuths xs ys : List ℝ) :
    (m.exact_polar ev freqs azimuths).length = min freqs.length azimuths.length ∧
    (m.exact_xy ev xs ys).length = min xs.length ys.length ∧
    (∀ i, i < freqs.length → i < azimuths.length →
      (m.exact_polar ev freqs azimuths).getD i 0 =
        ev (polar_to_cart (freqs.getD i 0) (azimuths.getD i 0)).1
           (polar_to_cart (freqs.getD i 0) (azimuths.getD i 0)).2) ∧
    (∀ i, i < xs.length → i < ys.length →
      (m.exact_xy ev xs ys).getD i 0 = ev (xs.getD i 0) (ys.getD i 0)) := by
  refine ⟨?_, ?_, ?_, ?_⟩
  · simp [MTF.exact_polar]
  · simp [MTF.exact_xy]
  · intro i h1 h2
    have hlen : i < ((freqs.zip azimuths).map (fun p =>
        ev (polar_to_cart p.1 p.2).1 (polar_to_cart p.1 p.2).2)).length := by
      simp
      omega
    rw [show m.exact_polar ev freqs azimuths = (freqs.zip azimuths).map (fun p =>
        ev (polar_to_cart p.1 p.2).1 (polar_to_cart p.1 p.2).2) from rfl,
      List.getD_eq_getElem _ _ hlen, List.getElem_map, List.getElem_zip,
      List.getD_eq_getElem _ _ h1, List.getD_eq_getElem _ _ h2]
  · intro i h1 h2
    have hlen : i < ((xs.zip ys).map (fun p => ev p.1 p.2)).length := by
      simp
      omega
    rw [show m.exact_xy ev xs ys = (xs.zip ys).map (fun p => ev p.1 p.2) from rfl,
      List.getD_eq_getElem _ _ hlen, List.getElem_map, List.getElem_zip,
      List.getD_eq_getElem _ _ h1, List.getD_eq_getElem _ _ h2]

/-- Witness for claim C5 on mismatched-length concrete sequences. -/
theorem exact_polar_xy_zip_truncation_witness :
    (mtfEx.exact_polar (fun x y => x + y) [3] [0, 5]).length =
      min ([3] : List ℝ).length ([0, 5] : List ℝ).length ∧
    (mtfEx.exact_xy (fun x y => x + y) [1, 2, 3] [4]).getD 0 0 =
      (fun x y : ℝ => x + y) (([1, 2, 3] : List ℝ).getD 0 0)
        (([4] : List ℝ).getD 0 0) :=
  ⟨(exact_polar_xy_zip_truncation mtfEx (fun x y => x + y) [3] [0, 5] [] []).1,
   (exact_polar_xy_zip_truncation mtfEx (fun x y => x + y) [] [] [1, 2, 3]
     [4]).2.2.2 0 (by norm_num) (by norm_num)⟩

/-! ### MTF normalization (claim C1) -/

/-- The all-zero 1×1 PSF. -/
def psfZero : PSFsq :=
  { n := 1, npos := one_pos, data := fun _ _ => 0, sample_spacing := 1 }

/-- The all-one 1×1 PSF. -/
def psfOne : PSFsq :=
  { n := 1, npos := one_pos, data := fun _ _ => 1, sample_spacing := 1 }

/-- The magnitude array of the all-zero PSF vanishes everywhere. -/
theorem psf_dat_psfZero (i j : Fin 1) : psf_dat psfZero i j = 0 := by
  simp [psf_dat, fftshift2, fft2, psfZero]

/-- The magnitude array of the all-one 1×1 PSF is 1 at the center. -/
theorem psf_dat_psfOne : psf_dat psfOne psfOne.center psfOne.center = 1 := by
  simp [psf_dat, fftshift2, fft2, psfOne, shiftIdx, Fin.sum_univ_one,
    Complex.exp_zero]

/-- Counterexample to claim C1: for the all-zero PSF the center magnitude is
0, the normalization divides 0 by 0 (`NaN` in the floating-point code, 0 in
this real-arithmetic model), and the MTF center entry is not 1. -/
theorem mtf_center_not_always_one :
    ((MTF.from_psf psfZero).data.getD (MTF.from_psf psfZero).center []).getD
      (MTF.from_psf psfZero).center 0 ≠ 1 := by
  have hcen : (MTF.from_psf psfZero).center = 0 := by
    simp [MTF.center, MTF.samples, MTF.from_psf, forward_ft_unit]
  rw [hcen]
  simp [MTF.from_psf, List.ofFn_succ, psf_dat_psfZero]

/-- Claim C1 as amended: whenever the center magnitude
`dat[psf.center, psf.center]` is nonzero (e.g. for any PSF whose data sum is
nonzero), the normalized MTF has value exactly 1 at its center entry. -/
theorem mtf_center_one_of_center_nonzero (p : PSFsq)
    (h : psf_dat p p.center p.center ≠ 0) :
    ((MTF.from_psf p).data.getD (MTF.from_psf p).center []).getD
      (MTF.from_psf p).center 0 = 1 := by
  have hc : p.n / 2 < p.n := Nat.div_lt_self p.npos one_lt_two
  have hcen : (MTF.from_psf p).center = p.n / 2 := by
    simp [MTF.center, MTF.samples, MTF.from_psf, forward_ft_unit]
  have hdata : (MTF.from_psf p).data.getD (p.n / 2) [] =
      List.ofFn (fun j : Fin p.n =>
        psf_dat p p.center j / psf_dat p p.center p.center) := by
    rw [show (MTF.from_psf p).data = List.ofFn (fun i : Fin p.n =>
      List.ofFn (fun j : Fin p.n =>
        psf_dat p i j / psf_dat p p.center p.center)) from rfl,
      List.getD_eq_getElem _ _ (by simpa using hc), List.getElem_ofFn]
    rfl
  rw [hcen, hdata, List.getD_eq_getElem _ _ (by simpa using hc),
    List.getElem_ofFn]
  exact div_self h

/-- Witness for the amended claim C1 at the all-one 1×1 PSF. -/
theorem mtf_center_one_witness :
    psf_dat psfOne psfOne.center psfOne.center ≠ 0 ∧
    ((MTF.from_psf psfOne).data.getD (MTF.from_psf psfOne).center []).getD
      (MTF.from_psf psfOne).center 0 = 1 :=
  ⟨by rw [psf_dat_psfOne]; norm_num,
   mtf_center_one_of_center_nonzero psfOne (by rw [psf_dat_psfOne]; norm_num)⟩

end Prysm
